import Mathlib

/-!
Verification of the Minecraft-skin render pipeline (src/src/lib.rs).

Shallow embedding conventions:
* `u8` and `u16` channel values are `ℕ` (canvas channels produced by the
  pipeline are always `≤ 255` because `toU8Clamped` clamps).
* `f32` arithmetic is modelled exactly over `ℝ`; `powf` is `Real.rpow`,
  `f32::round` (round half away from zero) is `roundAway`, `f32::floor`
  is `Int.floor`, and the saturating `as u32` cast of a floored value is
  `Int.toNat`.
* Images (`RgbaImage`, `ImageBuffer<Rgba<u16>, _>`) are a width, a height
  and a total pixel function `ℕ → ℕ → Rgba ℕ`; the source only ever
  indexes pixels inside the loop bounds, so totalising the pixel map does
  not change any behaviour the theorems talk about.
-/

/-- One pixel with red, green, blue and alpha channels, mirroring
`image::Rgba`.  The channel type is a parameter so the same structure
serves `Rgba<u8>` and `Rgba<u16>` pixels. -/
@[ext]
structure Rgba (α : Type) where
  r : α
  g : α
  b : α
  a : α
deriving Repr, DecidableEq

/-- An image: dimensions plus a total pixel map, mirroring `ImageBuffer`.
`pix x y` is `get_pixel(x, y)`. -/
structure Image (α : Type) where
  width : ℕ
  height : ℕ
  pix : ℕ → ℕ → Rgba α

/-- Rust `f32::round`: round to nearest, ties away from zero. -/
noncomputable def roundAway (x : ℝ) : ℤ :=
  if 0 ≤ x then ⌊x + 1/2⌋ else ⌈x - 1/2⌉

/-- `to_u8_clamped` from src/src/lib.rs lines 239-249: multiply by 255,
round (half away from zero), then clamp the rounded value to `[0, 255]`. -/
noncomputable def toU8Clamped (x : ℝ) : ℕ :=
  let result := roundAway (x * 255)
  if result < 0 then 0
  else if 255 < result then 255
  else result.toNat

/-- `normalize_rgba_u8` from src/src/lib.rs lines 217-226: each `u8`
channel is divided by 255. -/
noncomputable def normalizeRgbaU8 (pixel : Rgba ℕ) : Rgba ℝ :=
  ⟨(pixel.r : ℝ) / 255, (pixel.g : ℝ) / 255, (pixel.b : ℝ) / 255, (pixel.a : ℝ) / 255⟩

/-- `normalize_rgba_u16` from src/src/lib.rs lines 228-237: each `u16`
channel is divided by 65535. -/
noncomputable def normalizeRgbaU16 (pixel : Rgba ℕ) : Rgba ℝ :=
  ⟨(pixel.r : ℝ) / 65535, (pixel.g : ℝ) / 65535, (pixel.b : ℝ) / 65535,
    (pixel.a : ℝ) / 65535⟩

/-- The per-axis helper `nearest` inside `interpolate_nearest`
(src/src/lib.rs line 213): `min((f * max_val as f32).floor() as u32,
max_val - 1)`.  The `as u32` cast of a floored `f32` saturates negative
values to `0`, which is exactly `Int.toNat`. -/
noncomputable def nearestIdx (f : ℝ) (maxVal : ℕ) : ℕ :=
  min (Int.toNat ⌊f * (maxVal : ℝ)⌋) (maxVal - 1)

/-- `interpolate_nearest` from src/src/lib.rs lines 209-215. -/
noncomputable def interpolateNearest (x y : ℝ) (width height : ℕ) : ℕ × ℕ :=
  (nearestIdx x width, nearestIdx y height)

/-- `sample_texture` from src/src/lib.rs lines 203-207: flip `v` (bottom-left
to top-left origin) and look the texel up by nearest-neighbour index. -/
noncomputable def sampleTexture (image : Image ℕ) (u v : ℝ) : Rgba ℕ :=
  let xy := interpolateNearest u (1 - v) image.width image.height
  image.pix xy.1 xy.2

/-- `alpha_blend` from src/src/lib.rs lines 194-200: gamma-correct linear
interpolation, exponent 2.2 in and 1/2.2 out. -/
noncomputable def alphaBlend (val1 val2 alpha : ℝ) : ℝ :=
  let val1GammaCorrected := val1 ^ (2.2 : ℝ)
  let val2GammaCorrected := val2 ^ (2.2 : ℝ)
  let result := val1GammaCorrected * (1 - alpha) + val2GammaCorrected * alpha
  result ^ ((1 : ℝ) / 2.2)

/-- The closure `apply_lighting` from src/src/lib.rs line 160:
`color * light * 2`; the gain of 2 compensates for the quarter-scale
lighting bake. -/
noncomputable def applyLighting (color light : ℝ) : ℝ :=
  color * light * 2

/-- The `layer_alpha * uv_alpha` product of src/src/lib.rs line 164:
the sampled texel's normalized alpha times the UV quad's normalized
mask alpha. -/
noncomputable def effectiveAlpha (texture : Image ℕ) (uvPx : Rgba ℕ) : ℝ :=
  (normalizeRgbaU8
      (sampleTexture texture (normalizeRgbaU16 uvPx).r (normalizeRgbaU16 uvPx).g)).a *
    (normalizeRgbaU16 uvPx).a

/-- The loop body of `blend_layer_with_base` (src/src/lib.rs lines 149-178)
for a single destination pixel: normalize the current canvas pixel, read
the UV quad `(u, v, _, uv_alpha)`, sample the texture, apply lighting with
gain 2, gamma-blend by `layer_alpha * uv_alpha`, accumulate alpha, and
quantize every channel with `to_u8_clamped`. -/
noncomputable def blendPixel (basePx uvPx : Rgba ℕ) (texture : Image ℕ)
    (lightPx : Rgba ℕ) : Rgba ℕ :=
  let current := normalizeRgbaU8 basePx
  let uvq := normalizeRgbaU16 uvPx
  let layerCol := normalizeRgbaU8 (sampleTexture texture uvq.r uvq.g)
  let light := normalizeRgbaU8 lightPx
  let getResult := fun (base layer lighting : ℝ) =>
    alphaBlend base (applyLighting layer lighting) (layerCol.a * uvq.a)
  { r := toU8Clamped (getResult current.r layerCol.r light.r)
    g := toU8Clamped (getResult current.g layerCol.g light.g)
    b := toU8Clamped (getResult current.b layerCol.b light.b)
    a := toU8Clamped (current.a + layerCol.a * uvq.a) }

/-- `blend_layer_with_base` from src/src/lib.rs lines 141-181: apply
`blendPixel` at every coordinate inside the canvas bounds. -/
noncomputable def blendLayerWithBase (base layerUvs texture lighting : Image ℕ) :
    Image ℕ :=
  { width := base.width
    height := base.height
    pix := fun x y =>
      if x < base.width ∧ y < base.height then
        blendPixel (base.pix x y) (layerUvs.pix x y) texture (lighting.pix x y)
      else base.pix x y }

/-- `copy_alpha` from src/src/lib.rs lines 183-192: for every pixel inside
the target's bounds, keep the target's RGB and take the source's alpha. -/
def copyAlpha (target source : Image ℕ) : Image ℕ :=
  { target with
    pix := fun x y =>
      if x < target.width ∧ y < target.height then
        ⟨(target.pix x y).r, (target.pix x y).g, (target.pix x y).b,
          (source.pix x y).a⟩
      else target.pix x y }

/-- `create_chara_image` from src/src/lib.rs lines 105-131.  The affine
warp is performed by the external `imageproc` crate's `warp_into_with`,
which fills the freshly allocated output buffer (sized to the chara
reference); that intermediate warped buffer is passed here as `warped`.
The function then applies `copy_alpha` with the chara reference exactly
as the source does. -/
def createCharaImage (warped charaReference : Image ℕ) : Image ℕ :=
  copyAlpha ⟨charaReference.width, charaReference.height, warped.pix⟩ charaReference

/-- The embedded read-only assets loaded by `create_render`
(src/src/lib.rs lines 13-80): seven lighting images and eleven 16-bit
UV maps, all compiled-in constants whose pixel contents are opaque to
the pipeline logic. -/
structure RenderAssets where
  lighting : Image ℕ
  lightingLegL2 : Image ℕ
  lightingLegR2 : Image ℕ
  lightingArmL2 : Image ℕ
  lightingArmR2 : Image ℕ
  lightingChest2 : Image ℕ
  lightingHead2 : Image ℕ
  headUvs : Image ℕ
  headUvs2 : Image ℕ
  chestUvs : Image ℕ
  chestUvs2 : Image ℕ
  legRlUvs : Image ℕ
  legLUvs2 : Image ℕ
  legRUvs2 : Image ℕ
  armLUvs : Image ℕ
  armRUvs : Image ℕ
  armLUvs2 : Image ℕ
  armRUvs2 : Image ℕ

/-- The fresh all-zero canvas `ImageBuffer::new(head_uvs.dimensions())`
of src/src/lib.rs line 82: fully transparent black, sized by the head
UV map. -/
def emptyCanvas (assets : RenderAssets) : Image ℕ :=
  { width := assets.headUvs.width
    height := assets.headUvs.height
    pix := fun _ _ => ⟨0, 0, 0, 0⟩ }

/-- `create_render` from src/src/lib.rs lines 12-101: blend the eleven
body-part layers back to front onto the transparent canvas, one
`blend_layer_with_base` call per UV map, in the source's textual order. -/
noncomputable def createRender (assets : RenderAssets) (skinTexture : Image ℕ) :
    Image ℕ :=
  let output0 := emptyCanvas assets
  let output1 := blendLayerWithBase output0 assets.legRlUvs skinTexture assets.lighting
  let output2 := blendLayerWithBase output1 assets.armLUvs skinTexture assets.lighting
  let output3 := blendLayerWithBase output2 assets.headUvs skinTexture assets.lighting
  let output4 := blendLayerWithBase output3 assets.chestUvs skinTexture assets.lighting
  let output5 := blendLayerWithBase output4 assets.armLUvs2 skinTexture assets.lightingArmL2
  let output6 := blendLayerWithBase output5 assets.chestUvs2 skinTexture assets.lightingChest2
  let output7 := blendLayerWithBase output6 assets.headUvs2 skinTexture assets.lightingHead2
  let output8 := blendLayerWithBase output7 assets.legLUvs2 skinTexture assets.lightingLegL2
  let output9 := blendLayerWithBase output8 assets.legRUvs2 skinTexture assets.lightingLegR2
  let output10 := blendLayerWithBase output9 assets.armRUvs skinTexture assets.lighting
  let output11 := blendLayerWithBase output10 assets.armRUvs2 skinTexture assets.lightingArmR2
  output11

/-- Names for the eleven body-part layer passes of `create_render`, used
to state the draw order as data. -/
inductive BodyLayer where
  | legRl
  | armL
  | head
  | chest
  | armL2
  | chest2
  | head2
  | legL2
  | legR2
  | armR
  | armR2
deriving Repr, DecidableEq

/-- The UV map `create_render` passes to the blend engine for each layer. -/
def layerUv (assets : RenderAssets) : BodyLayer → Image ℕ
  | .legRl => assets.legRlUvs
  | .armL => assets.armLUvs
  | .head => assets.headUvs
  | .chest => assets.chestUvs
  | .armL2 => assets.armLUvs2
  | .chest2 => assets.chestUvs2
  | .head2 => assets.headUvs2
  | .legL2 => assets.legLUvs2
  | .legR2 => assets.legRUvs2
  | .armR => assets.armRUvs
  | .armR2 => assets.armRUvs2

/-- The lighting image `create_render` passes to the blend engine for each
layer. -/
def layerLighting (assets : RenderAssets) : BodyLayer → Image ℕ
  | .legRl => assets.lighting
  | .armL => assets.lighting
  | .head => assets.lighting
  | .chest => assets.lighting
  | .armL2 => assets.lightingArmL2
  | .chest2 => assets.lightingChest2
  | .head2 => assets.lightingHead2
  | .legL2 => assets.lightingLegL2
  | .legR2 => assets.lightingLegR2
  | .armR => assets.lighting
  | .armR2 => assets.lightingArmR2

/-- The back-to-front draw order of src/src/lib.rs lines 88-98: legs,
far (left) arm, head, torso, the detail-overlay maps, then the remaining
(right) arm and its overlay last. -/
def drawOrder : List BodyLayer :=
  [.legRl, .armL, .head, .chest, .armL2, .chest2, .head2, .legL2, .legR2,
    .armR, .armR2]

/-- `color_correct` from src/src/lib.rs lines 135-139: apply the contrast
curve `c ^ (1/0.72) * 0.72` to the normalized R, G and B channels, quantize
them, and keep the input's alpha byte unchanged. -/
noncomputable def colorCorrect (color : Rgba ℕ) : Rgba ℕ :=
  let reduceContrast := fun (c : ℝ) => c ^ ((1 : ℝ) / 0.72) * 0.72
  let n := normalizeRgbaU8 color
  { r := toU8Clamped (reduceContrast n.r)
    g := toU8Clamped (reduceContrast n.g)
    b := toU8Clamped (reduceContrast n.b)
    a := color.a }

/-- The spec's sampler formula, written from the spec's words:
`clamp(round(coord * dim - 0.5), 0, dim - 1)`, round-to-nearest with a
half-pixel offset (`round` is `f32::round`, ties away from zero). -/
noncomputable def specNearest (coord : ℝ) (dim : ℕ) : ℕ :=
  (min (max (roundAway (coord * (dim : ℝ) - 1/2)) 0) ((dim : ℤ) - 1)).toNat

/-- The spec's quantizer formula, written from the spec's words: multiply
by 255, round half up, clamp to `[0, 255]`. -/
noncomputable def specToU8 (x : ℝ) : ℕ :=
  (min 255 (max 0 ⌊x * 255 + 1/2⌋)).toNat

/-! ## Helper lemmas -/

theorem normU8_nonneg (px : Rgba ℕ) :
    0 ≤ (normalizeRgbaU8 px).r ∧ 0 ≤ (normalizeRgbaU8 px).g ∧
      0 ≤ (normalizeRgbaU8 px).b ∧ 0 ≤ (normalizeRgbaU8 px).a := by
  simp only [normalizeRgbaU8]
  refine ⟨by positivity, by positivity, by positivity, by positivity⟩

theorem applyLighting_nonneg {c l : ℝ} (hc : 0 ≤ c) (hl : 0 ≤ l) :
    0 ≤ applyLighting c l := by
  unfold applyLighting
  positivity

theorem alphaBlend_one (val1 val2 : ℝ) (h : 0 ≤ val2) :
    alphaBlend val1 val2 1 = val2 := by
  have h1 : alphaBlend val1 val2 1 = (val2 ^ (2.2 : ℝ)) ^ ((1 : ℝ) / 2.2) := by
    simp [alphaBlend]
  rw [h1, ← Real.rpow_mul h]
  rw [show (2.2 : ℝ) * (1 / 2.2) = 1 by norm_num, Real.rpow_one]

theorem alphaBlend_zero (val1 val2 : ℝ) (h : 0 ≤ val1) :
    alphaBlend val1 val2 0 = val1 := by
  have h1 : alphaBlend val1 val2 0 = (val1 ^ (2.2 : ℝ)) ^ ((1 : ℝ) / 2.2) := by
    simp [alphaBlend]
  rw [h1, ← Real.rpow_mul h]
  rw [show (2.2 : ℝ) * (1 / 2.2) = 1 by norm_num, Real.rpow_one]

theorem toU8Clamped_div255 (c : ℕ) (hc : c ≤ 255) :
    toU8Clamped ((c : ℝ) / 255) = c := by
  simp only [toU8Clamped, roundAway]
  have h1 : ((c : ℝ) / 255) * 255 = (c : ℝ) := by
    rw [div_mul_cancel₀]
    norm_num
  rw [h1, if_pos (show (0 : ℝ) ≤ (c : ℝ) by positivity)]
  have h3 : ⌊(c : ℝ) + 1/2⌋ = (c : ℤ) := by
    rw [Int.floor_eq_iff]
    push_cast
    constructor <;> linarith
  rw [h3]
  have h4 : ¬((c : ℤ) < 0) := by omega
  have h5 : ¬((255 : ℤ) < (c : ℤ)) := by omega
  rw [if_neg h4, if_neg h5]
  omega

theorem toU8Clamped_le_255 (x : ℝ) : toU8Clamped x ≤ 255 := by
  simp only [toU8Clamped]
  split_ifs with h1 h2
  · omega
  · omega
  · omega

theorem toU8Clamped_add_ge (a : ℕ) (t : ℝ) (ha : a ≤ 255) (ht : 0 ≤ t) :
    a ≤ toU8Clamped ((a : ℝ) / 255 + t) := by
  simp only [toU8Clamped, roundAway]
  have hx : ((a : ℝ) / 255 + t) * 255 = (a : ℝ) + t * 255 := by
    rw [add_mul, div_mul_cancel₀]
    norm_num
  rw [hx, if_pos (show (0 : ℝ) ≤ (a : ℝ) + t * 255 by positivity)]
  have hfl : (a : ℤ) ≤ ⌊(a : ℝ) + t * 255 + 1/2⌋ := by
    apply Int.le_floor.mpr
    push_cast
    linarith
  split_ifs with h1 h2
  · omega
  · exact ha
  · omega

theorem max_roundAway_floor (q : ℝ) :
    max (roundAway (q - 1/2)) 0 = max ⌊q⌋ 0 := by
  unfold roundAway
  by_cases h : (0 : ℝ) ≤ q - 1/2
  · rw [if_pos h]
    have hq : q - 1/2 + 1/2 = q := by ring
    rw [hq]
  · rw [if_neg h]
    push_neg at h
    have h1 : ⌈q - 1/2 - 1/2⌉ ≤ 0 := by
      apply Int.ceil_le.mpr
      push_cast
      linarith
    have h2 : ⌊q⌋ ≤ 0 := by
      have h3 : ⌊q⌋ < 1 := Int.floor_lt.mpr (by push_cast; linarith)
      omega
    omega

theorem nearestIdx_eq_spec (f : ℝ) (m : ℕ) (hm : 0 < m) :
    nearestIdx f m = specNearest f m := by
  unfold nearestIdx specNearest
  rw [max_roundAway_floor (f * (m : ℝ))]
  generalize ⌊f * (m : ℝ)⌋ = n
  omega

theorem nearestIdx_le_max (f : ℝ) (m : ℕ) : nearestIdx f m ≤ m - 1 :=
  min_le_right _ _

theorem nearestIdx_high (f : ℝ) (m : ℕ) (hm : 0 < m) (hf : 1 ≤ f) :
    nearestIdx f m = m - 1 := by
  have h1 : (m : ℤ) ≤ ⌊f * (m : ℝ)⌋ := by
    apply Int.le_floor.mpr
    push_cast
    exact le_mul_of_one_le_left (by positivity) hf
  unfold nearestIdx
  omega

theorem nearestIdx_low (f : ℝ) (m : ℕ) (hf : f ≤ 0) :
    nearestIdx f m = 0 := by
  have h1 : f * (m : ℝ) ≤ 0 := by
    have h2 := mul_le_mul_of_nonneg_right hf (show (0 : ℝ) ≤ (m : ℝ) by positivity)
    rw [zero_mul] at h2
    exact h2
  have h3 : ⌊f * (m : ℝ)⌋ ≤ 0 := by
    have h4 := Int.floor_le_floor h1
    rw [Int.floor_zero] at h4
    exact h4
  unfold nearestIdx
  omega

theorem blendPixel_alpha_mono (basePx uvPx : Rgba ℕ) (texture : Image ℕ)
    (lightPx : Rgba ℕ) (ha : basePx.a ≤ 255) :
    basePx.a ≤ (blendPixel basePx uvPx texture lightPx).a ∧
      (blendPixel basePx uvPx texture lightPx).a ≤ 255 := by
  have e : (blendPixel basePx uvPx texture lightPx).a =
      toU8Clamped ((basePx.a : ℝ) / 255 +
        (((sampleTexture texture ((uvPx.r : ℝ) / 65535) ((uvPx.g : ℝ) / 65535)).a : ℝ) / 255) *
          ((uvPx.a : ℝ) / 65535)) := rfl
  constructor
  · rw [e]
    exact toU8Clamped_add_ge _ _ ha (by positivity)
  · rw [e]
    exact toU8Clamped_le_255 _

theorem blendLayer_alpha_mono (base layerUvs texture lighting : Image ℕ)
    (x y : ℕ) (ha : (base.pix x y).a ≤ 255) :
    (base.pix x y).a ≤ ((blendLayerWithBase base layerUvs texture lighting).pix x y).a ∧
      ((blendLayerWithBase base layerUvs texture lighting).pix x y).a ≤ 255 := by
  simp only [blendLayerWithBase]
  by_cases hin : x < base.width ∧ y < base.height
  · rw [if_pos hin]
    exact blendPixel_alpha_mono _ _ _ _ ha
  · rw [if_neg hin]
    exact ⟨le_refl _, ha⟩

theorem foldl_alpha_mono (texture : Image ℕ) (x y : ℕ) :
    ∀ (layers : List (Image ℕ × Image ℕ)) (base : Image ℕ),
      (base.pix x y).a ≤ 255 →
      (base.pix x y).a ≤
          ((layers.foldl (fun c p => blendLayerWithBase c p.1 texture p.2) base).pix x y).a ∧
        ((layers.foldl (fun c p => blendLayerWithBase c p.1 texture p.2) base).pix x y).a ≤ 255
  | [], base, ha => ⟨le_refl _, ha⟩
  | p :: rest, base, ha => by
    have h1 := blendLayer_alpha_mono base p.1 texture p.2 x y ha
    have h2 := foldl_alpha_mono texture x y rest
      (blendLayerWithBase base p.1 texture p.2) h1.2
    simp only [List.foldl]
    exact ⟨le_trans h1.1 h2.1, h2.2⟩

/-! ## Claim theorems -/

/-- C1 (counterexample): the claim that `create_chara_image` sets the
output alpha to the minimum of the warped render's alpha and the frame
reference's alpha is false: a warped alpha of 100 against a reference
alpha of 255 yields output alpha 255 (the reference alpha, copied
directly), not `min 100 255 = 100`. -/
theorem createCharaImage_min_alpha_false :
    ¬ (((createCharaImage ⟨1, 1, fun _ _ => ⟨0, 0, 0, 100⟩⟩
          ⟨1, 1, fun _ _ => ⟨0, 0, 0, 255⟩⟩).pix 0 0).a =
        min ((Image.pix ⟨1, 1, fun _ _ => ⟨0, 0, 0, 100⟩⟩ 0 0).a)
          ((Image.pix ⟨1, 1, fun _ _ => ⟨0, 0, 0, 255⟩⟩ 0 0).a)) := by
  decide

/-- C1 (amended): for every destination pixel of the frame produced by
`create_chara_image`, the output alpha equals the frame reference's alpha
at that pixel, copied directly and discarding the warped render's own
alpha; in particular a warped render alpha of 100 against a reference
alpha of 255 yields output alpha 255. -/
theorem createCharaImage_alpha (warped charaReference : Image ℕ) (x y : ℕ)
    (hx : x < charaReference.width) (hy : y < charaReference.height) :
    ((createCharaImage warped charaReference).pix x y).a =
      (charaReference.pix x y).a := by
  simp only [createCharaImage, copyAlpha]
  rw [if_pos ⟨hx, hy⟩]

/-- C1 witness: the amended theorem applied at a concrete pixel. -/
theorem createCharaImage_alpha_witness :
    (0 : ℕ) < 1 ∧ (0 : ℕ) < 1 ∧
      ((createCharaImage ⟨1, 1, fun _ _ => ⟨0, 0, 0, 100⟩⟩
          ⟨1, 1, fun _ _ => ⟨0, 0, 0, 255⟩⟩).pix 0 0).a =
        ((Image.pix ⟨1, 1, fun _ _ => ⟨0, 0, 0, 255⟩⟩ 0 0).a) :=
  ⟨by decide, by decide,
    createCharaImage_alpha ⟨1, 1, fun _ _ => ⟨0, 0, 0, 100⟩⟩
      ⟨1, 1, fun _ _ => ⟨0, 0, 0, 255⟩⟩ 0 0 (by decide) (by decide)⟩

/-- C2: for every input coordinate and positive texture dimensions,
`interpolate_nearest` resolves each axis to
`clamp(round(coord * dim - 0.5), 0, dim - 1)` — the code's
`min(floor(coord * dim) as u32, dim - 1)` computes exactly the spec's
round-to-nearest-with-half-pixel-offset formula on each axis. -/
theorem interpolateNearest_eq_spec (x y : ℝ) (width height : ℕ)
    (hw : 0 < width) (hh : 0 < height) :
    interpolateNearest x y width height = (specNearest x width, specNearest y height) := by
  unfold interpolateNearest
  rw [nearestIdx_eq_spec x width hw, nearestIdx_eq_spec y height hh]

/-- C2 witness: the equivalence applied at concrete coordinates. -/
theorem interpolateNearest_eq_spec_witness :
    (0 : ℕ) < 8 ∧ (0 : ℕ) < 8 ∧
      interpolateNearest (3/2) (1/4) 8 8 = (specNearest (3/2) 8, specNearest (1/4) 8) :=
  ⟨by norm_num, by norm_num,
    interpolateNearest_eq_spec (3/2) (1/4) 8 8 (by norm_num) (by norm_num)⟩

/-- C6: for every coordinate (also outside `[0, 1]`) and positive
dimensions, the sampler's resolved index lies in `[0, dim - 1]`, and
out-of-range coordinates clamp to the boundary index instead of
wrapping. -/
theorem interpolateNearest_in_bounds (x y : ℝ) (width height : ℕ)
    (hw : 0 < width) (hh : 0 < height) :
    (interpolateNearest x y width height).1 ≤ width - 1 ∧
      (interpolateNearest x y width height).2 ≤ height - 1 ∧
      (1 ≤ x → (interpolateNearest x y width height).1 = width - 1) ∧
      (x ≤ 0 → (interpolateNearest x y width height).1 = 0) ∧
      (1 ≤ y → (interpolateNearest x y width height).2 = height - 1) ∧
      (y ≤ 0 → (interpolateNearest x y width height).2 = 0) := by
  refine ⟨nearestIdx_le_max x width, nearestIdx_le_max y height,
    fun hx => nearestIdx_high x width hw hx,
    fun hx => nearestIdx_low x width hx,
    fun hy => nearestIdx_high y height hh hy,
    fun hy => nearestIdx_low y height hy⟩

/-- C6 witness: the bounds applied at concrete out-of-range coordinates. -/
theorem interpolateNearest_in_bounds_witness :
    (0 : ℕ) < 16 ∧ (0 : ℕ) < 16 ∧
      ((interpolateNearest (5/2) (-1) 16 16).1 ≤ 16 - 1 ∧
        (interpolateNearest (5/2) (-1) 16 16).2 ≤ 16 - 1 ∧
        ((1 : ℝ) ≤ 5/2 → (interpolateNearest (5/2) (-1) 16 16).1 = 16 - 1) ∧
        ((5/2 : ℝ) ≤ 0 → (interpolateNearest (5/2) (-1) 16 16).1 = 0) ∧
        ((1 : ℝ) ≤ -1 → (interpolateNearest (5/2) (-1) 16 16).2 = 16 - 1) ∧
        ((-1 : ℝ) ≤ 0 → (interpolateNearest (5/2) (-1) 16 16).2 = 0)) :=
  ⟨by norm_num, by norm_num,
    interpolateNearest_in_bounds (5/2) (-1) 16 16 (by norm_num) (by norm_num)⟩

/-- C7: `to_u8_clamped` computes exactly the spec's formula — multiply by
255, round half up, clamp to `[0, 255]` — and in particular
`to_u8_clamped(0.5) = 128`, `to_u8_clamped(-1.5) = 0` and
`to_u8_clamped(1.01) = 255`. -/
theorem toU8Clamped_spec :
    (∀ x : ℝ, toU8Clamped x = specToU8 x) ∧
      toU8Clamped (1/2) = 128 ∧ toU8Clamped (-(3/2)) = 0 ∧
      toU8Clamped (101/100) = 255 := by
  have main : ∀ x : ℝ, toU8Clamped x = specToU8 x := by
    intro x
    simp only [toU8Clamped, specToU8, roundAway]
    by_cases h : (0 : ℝ) ≤ x * 255
    · rw [if_pos h]
      generalize ⌊x * 255 + 1/2⌋ = n
      split_ifs <;> omega
    · rw [if_neg h]
      push_neg at h
      have h1 : ⌈x * 255 - 1/2⌉ ≤ 0 := by
        apply Int.ceil_le.mpr
        push_cast
        linarith
      have h2 : ⌊x * 255 + 1/2⌋ ≤ 0 := by
        have h3 : ⌊x * 255 + 1/2⌋ < 1 := Int.floor_lt.mpr (by push_cast; linarith)
        omega
      split_ifs <;> omega
  refine ⟨main, ?_, ?_, ?_⟩
  · rw [main]
    simp only [specToU8]
    have e : (1/2 : ℝ) * 255 + 1/2 = ((128 : ℤ) : ℝ) := by norm_num
    rw [e, Int.floor_intCast]
    decide
  · rw [main]
    simp only [specToU8]
    have e : (-(3/2) : ℝ) * 255 + 1/2 = ((-382 : ℤ) : ℝ) := by norm_num
    rw [e, Int.floor_intCast]
    decide
  · rw [main]
    simp only [specToU8]
    have e : ⌊(101/100 : ℝ) * 255 + 1/2⌋ = 258 := by
      rw [Int.floor_eq_iff]
      constructor <;> push_cast <;> norm_num
    rw [e]
    decide

/-- C3: blending with `effective_alpha = 1` (sampled alpha times mask
alpha equal to one) produces, after quantization, exactly the lit layer
value `applyLighting texel light` on every colour channel — bit-for-bit
what an opaque shortcut that skips the gamma transform would store. -/
theorem blendPixel_fullAlpha (basePx uvPx : Rgba ℕ) (texture : Image ℕ)
    (lightPx : Rgba ℕ) (h : effectiveAlpha texture uvPx = 1) :
    (blendPixel basePx uvPx texture lightPx).r =
        toU8Clamped (applyLighting
          (normalizeRgbaU8 (sampleTexture texture (normalizeRgbaU16 uvPx).r
            (normalizeRgbaU16 uvPx).g)).r (normalizeRgbaU8 lightPx).r) ∧
      (blendPixel basePx uvPx texture lightPx).g =
        toU8Clamped (applyLighting
          (normalizeRgbaU8 (sampleTexture texture (normalizeRgbaU16 uvPx).r
            (normalizeRgbaU16 uvPx).g)).g (normalizeRgbaU8 lightPx).g) ∧
      (blendPixel basePx uvPx texture lightPx).b =
        toU8Clamped (applyLighting
          (normalizeRgbaU8 (sampleTexture texture (normalizeRgbaU16 uvPx).r
            (normalizeRgbaU16 uvPx).g)).b (normalizeRgbaU8 lightPx).b) := by
  unfold effectiveAlpha at h
  simp only [blendPixel, h]
  have hsample := normU8_nonneg (sampleTexture texture (normalizeRgbaU16 uvPx).r
    (normalizeRgbaU16 uvPx).g)
  have hlight := normU8_nonneg lightPx
  refine ⟨?_, ?_, ?_⟩
  · rw [alphaBlend_one _ _ (applyLighting_nonneg hsample.1 hlight.1)]
  · rw [alphaBlend_one _ _ (applyLighting_nonneg hsample.2.1 hlight.2.1)]
  · rw [alphaBlend_one _ _ (applyLighting_nonneg hsample.2.2.1 hlight.2.2.1)]

/-- C3 witness: a fully opaque texel under a fully opaque mask. -/
theorem blendPixel_fullAlpha_witness :
    effectiveAlpha ⟨1, 1, fun _ _ => ⟨7, 8, 9, 255⟩⟩ ⟨0, 0, 0, 65535⟩ = 1 ∧
      (blendPixel ⟨1, 2, 3, 4⟩ ⟨0, 0, 0, 65535⟩ ⟨1, 1, fun _ _ => ⟨7, 8, 9, 255⟩⟩
          ⟨10, 20, 30, 40⟩).r =
        toU8Clamped (applyLighting
          (normalizeRgbaU8 (sampleTexture ⟨1, 1, fun _ _ => ⟨7, 8, 9, 255⟩⟩
            (normalizeRgbaU16 ⟨0, 0, 0, 65535⟩).r
            (normalizeRgbaU16 ⟨0, 0, 0, 65535⟩).g)).r
          (normalizeRgbaU8 ⟨10, 20, 30, 40⟩).r) := by
  have h : effectiveAlpha ⟨1, 1, fun _ _ => ⟨7, 8, 9, 255⟩⟩ ⟨0, 0, 0, 65535⟩ = 1 := by
    simp only [effectiveAlpha, sampleTexture, normalizeRgbaU8, normalizeRgbaU16]
    norm_num
  exact ⟨h, (blendPixel_fullAlpha ⟨1, 2, 3, 4⟩ ⟨0, 0, 0, 65535⟩
    ⟨1, 1, fun _ _ => ⟨7, 8, 9, 255⟩⟩ ⟨10, 20, 30, 40⟩ h).1⟩

/-- C4: blending a layer whose effective alpha (sampled alpha times UV
mask alpha) is zero at a pixel — in particular a pixel whose UV-map mask
alpha channel is exactly zero — leaves the stored canvas pixel unchanged
on every channel. -/
theorem blendPixel_transparent (basePx uvPx : Rgba ℕ) (texture : Image ℕ)
    (lightPx : Rgba ℕ) (h : effectiveAlpha texture uvPx = 0)
    (hr : basePx.r ≤ 255) (hg : basePx.g ≤ 255) (hb : basePx.b ≤ 255)
    (ha : basePx.a ≤ 255) :
    blendPixel basePx uvPx texture lightPx = basePx := by
  unfold effectiveAlpha at h
  simp only [blendPixel, h]
  have hn := normU8_nonneg basePx
  rw [alphaBlend_zero _ _ hn.1, alphaBlend_zero _ _ hn.2.1,
    alphaBlend_zero _ _ hn.2.2.1, add_zero]
  simp only [normalizeRgbaU8]
  rw [toU8Clamped_div255 _ hr, toU8Clamped_div255 _ hg,
    toU8Clamped_div255 _ hb, toU8Clamped_div255 _ ha]

/-- C4 witness: a UV quad with mask alpha zero leaves a concrete canvas
pixel untouched. -/
theorem blendPixel_transparent_witness :
    effectiveAlpha ⟨1, 1, fun _ _ => ⟨7, 8, 9, 255⟩⟩ ⟨1, 2, 3, 0⟩ = 0 ∧
      (10 : ℕ) ≤ 255 ∧ (20 : ℕ) ≤ 255 ∧ (30 : ℕ) ≤ 255 ∧ (40 : ℕ) ≤ 255 ∧
      blendPixel ⟨10, 20, 30, 40⟩ ⟨1, 2, 3, 0⟩ ⟨1, 1, fun _ _ => ⟨7, 8, 9, 255⟩⟩
          ⟨50, 60, 70, 80⟩ =
        ⟨10, 20, 30, 40⟩ := by
  have h : effectiveAlpha ⟨1, 1, fun _ _ => ⟨7, 8, 9, 255⟩⟩ ⟨1, 2, 3, 0⟩ = 0 := by
    simp only [effectiveAlpha, normalizeRgbaU16]
    norm_num
  exact ⟨h, by norm_num, by norm_num, by norm_num, by norm_num,
    blendPixel_transparent ⟨10, 20, 30, 40⟩ ⟨1, 2, 3, 0⟩
      ⟨1, 1, fun _ _ => ⟨7, 8, 9, 255⟩⟩ ⟨50, 60, 70, 80⟩ h
      (by norm_num) (by norm_num) (by norm_num) (by norm_num)⟩

/-- C5: after one invocation of the blend engine the stored canvas alpha
at each pixel is greater than or equal to its previous value and never
exceeds 255, and the same holds across any sequence of layer passes, so
canvas alpha is monotonically non-decreasing and saturates at full
opacity. -/
theorem blendLayer_alpha_monotone (base layerUvs texture lighting : Image ℕ)
    (x y : ℕ) (ha : (base.pix x y).a ≤ 255) :
    ((base.pix x y).a ≤
          ((blendLayerWithBase base layerUvs texture lighting).pix x y).a ∧
        ((blendLayerWithBase base layerUvs texture lighting).pix x y).a ≤ 255) ∧
      ∀ layers : List (Image ℕ × Image ℕ),
        (base.pix x y).a ≤
            ((layers.foldl (fun c p => blendLayerWithBase c p.1 texture p.2) base).pix x y).a ∧
          ((layers.foldl (fun c p => blendLayerWithBase c p.1 texture p.2) base).pix x y).a ≤ 255 :=
  ⟨blendLayer_alpha_mono base layerUvs texture lighting x y ha,
    fun layers => foldl_alpha_mono texture x y layers base ha⟩

/-- C5 witness: alpha monotonicity at a concrete canvas pixel. -/
theorem blendLayer_alpha_monotone_witness :
    ((Image.pix ⟨1, 1, fun _ _ => ⟨0, 0, 0, 100⟩⟩ 0 0).a ≤ 255) ∧
      (((Image.pix ⟨1, 1, fun _ _ => ⟨0, 0, 0, 100⟩⟩ 0 0).a ≤
            ((blendLayerWithBase ⟨1, 1, fun _ _ => ⟨0, 0, 0, 100⟩⟩
                ⟨1, 1, fun _ _ => ⟨0, 0, 0, 0⟩⟩ ⟨1, 1, fun _ _ => ⟨0, 0, 0, 0⟩⟩
                ⟨1, 1, fun _ _ => ⟨0, 0, 0, 0⟩⟩).pix 0 0).a ∧
          ((blendLayerWithBase ⟨1, 1, fun _ _ => ⟨0, 0, 0, 100⟩⟩
              ⟨1, 1, fun _ _ => ⟨0, 0, 0, 0⟩⟩ ⟨1, 1, fun _ _ => ⟨0, 0, 0, 0⟩⟩
              ⟨1, 1, fun _ _ => ⟨0, 0, 0, 0⟩⟩).pix 0 0).a ≤ 255) ∧
        ∀ layers : List (Image ℕ × Image ℕ),
          (Image.pix ⟨1, 1, fun _ _ => ⟨0, 0, 0, 100⟩⟩ 0 0).a ≤
              ((layers.foldl
                  (fun c p => blendLayerWithBase c p.1 ⟨1, 1, fun _ _ => ⟨0, 0, 0, 0⟩⟩ p.2)
                  ⟨1, 1, fun _ _ => ⟨0, 0, 0, 100⟩⟩).pix 0 0).a ∧
            ((layers.foldl
                (fun c p => blendLayerWithBase c p.1 ⟨1, 1, fun _ _ => ⟨0, 0, 0, 0⟩⟩ p.2)
                ⟨1, 1, fun _ _ => ⟨0, 0, 0, 100⟩⟩).pix 0 0).a ≤ 255) :=
  ⟨by decide,
    blendLayer_alpha_monotone ⟨1, 1, fun _ _ => ⟨0, 0, 0, 100⟩⟩
      ⟨1, 1, fun _ _ => ⟨0, 0, 0, 0⟩⟩ ⟨1, 1, fun _ _ => ⟨0, 0, 0, 0⟩⟩
      ⟨1, 1, fun _ _ => ⟨0, 0, 0, 0⟩⟩ 0 0 (by decide)⟩

/-- C8: the lit layer value supplied to alpha blending on each colour
channel is exactly `texel_channel * lighting_scalar * 2`, formed in
normalized floating point before the 8-bit quantization step. -/
theorem blendPixel_lit_value (basePx uvPx : Rgba ℕ) (texture : Image ℕ)
    (lightPx : Rgba ℕ) :
    ((blendPixel basePx uvPx texture lightPx).r =
        toU8Clamped (alphaBlend (normalizeRgbaU8 basePx).r
          (applyLighting (normalizeRgbaU8 (sampleTexture texture
            (normalizeRgbaU16 uvPx).r (normalizeRgbaU16 uvPx).g)).r
            (normalizeRgbaU8 lightPx).r)
          (effectiveAlpha texture uvPx)) ∧
      (blendPixel basePx uvPx texture lightPx).g =
        toU8Clamped (alphaBlend (normalizeRgbaU8 basePx).g
          (applyLighting (normalizeRgbaU8 (sampleTexture texture
            (normalizeRgbaU16 uvPx).r (normalizeRgbaU16 uvPx).g)).g
            (normalizeRgbaU8 lightPx).g)
          (effectiveAlpha texture uvPx)) ∧
      (blendPixel basePx uvPx texture lightPx).b =
        toU8Clamped (alphaBlend (normalizeRgbaU8 basePx).b
          (applyLighting (normalizeRgbaU8 (sampleTexture texture
            (normalizeRgbaU16 uvPx).r (normalizeRgbaU16 uvPx).g)).b
            (normalizeRgbaU8 lightPx).b)
          (effectiveAlpha texture uvPx))) ∧
      ∀ color light : ℝ, applyLighting color light = color * light * 2 :=
  ⟨⟨rfl, rfl, rfl⟩, fun _ _ => rfl⟩

/-- C9: `create_render` composites the body-part layers in the fixed
back-to-front order — legs, far arm, head, torso, the detail overlays,
and the remaining arm (with its overlay) last — invoking the blend
engine exactly once per body-part UV map, for every input texture. -/
theorem createRender_draw_order (assets : RenderAssets) (skinTexture : Image ℕ) :
    createRender assets skinTexture =
        drawOrder.foldl
          (fun canvas layer =>
            blendLayerWithBase canvas (layerUv assets layer) skinTexture
              (layerLighting assets layer))
          (emptyCanvas assets) ∧
      drawOrder =
        [BodyLayer.legRl, BodyLayer.armL, BodyLayer.head, BodyLayer.chest,
          BodyLayer.armL2, BodyLayer.chest2, BodyLayer.head2, BodyLayer.legL2,
          BodyLayer.legR2, BodyLayer.armR, BodyLayer.armR2] ∧
      drawOrder.Nodup ∧ drawOrder.length = 11 :=
  ⟨rfl, rfl, by decide, rfl⟩

/-- C10: `color_correct` returns a pixel whose alpha channel is the
input's alpha unchanged, while the red, green and blue channels go
through the contrast curve `c ^ (1/0.72) * 0.72`. -/
theorem colorCorrect_preserves_alpha (color : Rgba ℕ) :
    (colorCorrect color).a = color.a ∧
      (colorCorrect color).r =
        toU8Clamped (((color.r : ℝ) / 255) ^ ((1 : ℝ) / 0.72) * 0.72) ∧
      (colorCorrect color).g =
        toU8Clamped (((color.g : ℝ) / 255) ^ ((1 : ℝ) / 0.72) * 0.72) ∧
      (colorCorrect color).b =
        toU8Clamped (((color.b : ℝ) / 255) ^ ((1 : ℝ) / 0.72) * 0.72) :=
  ⟨rfl, rfl, rfl, rfl⟩
